/-
Verification of the SAJ Sununo monitor integration.

Shallow embedding of `custom_components/saj_sununo_monitor/coordinator.py`,
`sensor.py` and `__init__.py`.  Python dicts become association lists over
`String`; Python values appearing in parsed samples become the `Value` type
(`null` for Python `None`, `num` over `ℚ` for floats, `str` for strings);
machine floats are modelled by rationals, which is exact on the decimal
literals this system handles.  The asyncio lock makes every coordinator
method an atomic state transformer, so the coordinator is embedded as pure
functions on a `CoordState` record, and reachability is a step relation
whose steps are exactly those atomic critical sections.
-/
import Mathlib

namespace SajSununo

/-- A Python value as it occurs in a parsed sample dict: `None`, a float
(modelled as a rational), or a string. -/
inductive Value where
  | null
  | num (q : ℚ)
  | str (s : String)
deriving DecidableEq, Repr

/-- A Python dict keyed by strings, as an association list (first binding of a
key wins, as `dict` has at most one binding per key). -/
abbrev DataMap := List (String × Value)

/-- `d.get(k)`: the value bound to `k`, if any. -/
def dget (d : DataMap) (k : String) : Option Value :=
  match d with
  | [] => Option.none
  | (k', v) :: rest => if k' = k then some v else dget rest k

/-- `d[k] = v`: replace the binding of `k`, or append one. -/
def dset (d : DataMap) (k : String) (v : Value) : DataMap :=
  match d with
  | [] => [(k, v)]
  | (k', v') :: rest => if k' = k then (k, v) :: rest else (k', v') :: dset rest k v

/-- Value of the digit character `c`. -/
def digitVal (c : Char) : ℕ := c.toNat - 48

/-- The natural number denoted by a list of digit characters. -/
def natOfDigits (cs : List Char) : ℕ :=
  cs.foldl (fun n c => 10 * n + digitVal c) 0

/-- Recognizer for an unsigned decimal numeral: digits with an optional
point, e.g. `231.4`, `12`, `.5`, `231.`.  Returns the mantissa (all digits
read as one natural) and the number of fractional digits.  Exponents,
`inf`/`nan` and digit underscores never occur in this device's XML and are
out of scope. -/
def pyFloatParts (cs : List Char) : Option (ℕ × ℕ) :=
  let intPart := cs.takeWhile (fun c => c ≠ '.')
  let rest := cs.dropWhile (fun c => c ≠ '.')
  match rest with
  | [] =>
    if intPart ≠ [] ∧ intPart.all Char.isDigit then
      some (natOfDigits intPart, 0)
    else
      Option.none
  | _ :: frac =>
    if (intPart ≠ [] ∨ frac ≠ []) ∧ intPart.all Char.isDigit ∧ frac.all Char.isDigit then
      some (natOfDigits (intPart ++ frac), frac.length)
    else
      Option.none

/-- Sign-and-numeral recognizer: `(negative?, mantissa, fractional digits)`.
`Option.none` models a raised `ValueError`. -/
def pyFloatRep (s : String) : Option (Bool × ℕ × ℕ) :=
  match s.toList with
  | [] => Option.none
  | c :: rest =>
    if c = '-' then (pyFloatParts rest).map (fun p => (true, p))
    else if c = '+' then (pyFloatParts rest).map (fun p => (false, p))
    else (pyFloatParts (c :: rest)).map (fun p => (false, p))

/-- Python `float(s)` on an already-stripped string: optional sign, then a
decimal numeral; `Option.none` models a raised `ValueError`. -/
def pyFloat? (s : String) : Option ℚ :=
  (pyFloatRep s).map (fun p =>
    let q : ℚ := (p.2.1 : ℚ) / (10 : ℚ) ^ p.2.2
    if p.1 then -q else q)

/-- Python `float(value)` on a sample value; `Option.none` models a raised
`TypeError` (for `None`) or `ValueError` (for a non-numeric string). -/
def floatPy : Value → Option ℚ
  | .null => Option.none
  | .num q => some q
  | .str s => pyFloat? s

/-- Python `str.strip()` with no argument: drop leading and trailing
whitespace (defined over the character list so that proofs and concrete
evaluation go through the kernel). -/
def pyStrip (s : String) : String :=
  String.mk (((s.toList.dropWhile Char.isWhitespace).reverse.dropWhile
    Char.isWhitespace).reverse)

/-- Helper of `pySplitWs`: split a character list into maximal runs of
non-whitespace characters (`acc` holds the current run, reversed). -/
def wordsAux : List Char → List Char → List (List Char)
  | [], acc => if acc = [] then [] else [acc.reverse]
  | c :: rest, acc =>
    if Char.isWhitespace c then
      if acc = [] then wordsAux rest [] else acc.reverse :: wordsAux rest []
    else wordsAux rest (c :: acc)

/-- Python `str.split()` with no argument: split on runs of whitespace,
dropping empty pieces. -/
def pySplitWs (s : String) : List String :=
  (wordsAux s.toList []).map String.mk

/-- Whether `pre` is a prefix of the character list. -/
def charPrefix : List Char → List Char → Bool
  | [], _ => true
  | _ :: _, [] => false
  | p :: ps, c :: cs => p = c && charPrefix ps cs

/-- Python `s.startswith(pre)`. -/
def pyStartsWith (s pre : String) : Bool :=
  charPrefix pre.toList s.toList

/-! ## The XML document model

`defusedxml.ElementTree.fromstring` either raises `ParseError` (malformed
document) or yields an element tree; the parser then only uses `root.find`
(first direct child with the given tag) and `element.text`.  A well-formed
document is therefore modelled as the list of the root's children, each a
tag plus optional text (`ElementTree` reports `text = None` both for a
missing and for an empty element, so `Option.none` covers the "empty text"
case as well).  A malformed input is `Option.none` at the `_parse_xml_data`
boundary. -/

structure XmlElement where
  tag : String
  text : Option String
deriving DecidableEq, Repr

abbrev XmlDoc := List XmlElement

/-- `root.find(tag)`: first child with the given tag. -/
def xfind (doc : XmlDoc) (tag : String) : Option XmlElement :=
  doc.find? (fun e => e.tag == tag)

/-- The text of the found element, when the element exists and has text. -/
def elemText (doc : XmlDoc) (tag : String) : Option String :=
  (xfind doc tag).bind (fun e => e.text)

/-! ## Static field tables (coordinator.py) -/

/-- `XML_FIELDS`: key, xml tag, and whether a `float` converter is declared
(`False` mirrors the `None` converter, i.e. keep as string). -/
def XML_FIELDS : List (String × String × Bool) :=
  [("state", "state", false),
   ("v-grid", "v-grid", true),
   ("i-grid", "i-grid", true),
   ("f-grid", "f-grid", true),
   ("p-ac", "p-ac", true),
   ("temp", "temp", true),
   ("e-today", "e-today", true),
   ("t-today", "t-today", true),
   ("e-total", "e-total", true),
   ("CO2", "CO2", true),
   ("t-total", "t-total", true),
   ("v-pv1", "v-pv1", true),
   ("i-pv1", "i-pv1", true),
   ("v-pv2", "v-pv2", true),
   ("i-pv2", "i-pv2", true),
   ("v-pv3", "v-pv3", true),
   ("i-pv3", "i-pv3", true),
   ("v-pv4", "v-pv4", true),
   ("i-pv4", "i-pv4", true),
   ("v-bus", "v-bus", true)]

def AVERAGE_KEYS : List String :=
  ["v-grid", "i-grid", "f-grid", "p-ac", "temp",
   "v-pv1", "i-pv1", "v-pv2", "i-pv2", "v-pv3", "i-pv3", "v-pv4", "i-pv4"]

/-- The keys whose raw text is split at whitespace before conversion
(coordinator.py line 221). -/
def SPLIT_KEYS : List String :=
  ["v-pv2", "i-pv2", "v-pv3", "i-pv3", "v-pv4", "i-pv4"]

/-- `key.startswith(("v-pv", "i-pv"))`. -/
def pvPrefix (key : String) : Bool :=
  pyStartsWith key "v-pv" || pyStartsWith key "i-pv"

def pvWarnMsg (tag : String) : String := "Missing PV sensor XML element: " ++ tag

def missWarnMsg (tag : String) : String := "Missing XML element: " ++ tag

def convWarnMsg (key : String) : String := "Error converting " ++ key

/-! ## The parser (`_parse_xml_data`) -/

/-- Accumulator of the field loop: the data built so far, the
`_missing_pv_sensors` set (as a list), and the warnings logged so far. -/
abbrev PAcc := DataMap × List String × List String

/-- One iteration of the `for key, (xml_tag, converter) in XML_FIELDS.items()`
loop of `_parse_xml_data` (coordinator.py lines 203-231). -/
def parseStep (root : XmlDoc) (st : PAcc) (f : String × String × Bool) : PAcc :=
  let (data, miss, warns) := st
  let (key, tag, hasConv) := f
  match elemText root tag with
  | Option.none =>
    -- element is None or element.text is None: warn (once for PV sensors)
    if pvPrefix key then
      if key ∈ miss then (data, miss, warns)
      else (data, miss ++ [key], warns ++ [pvWarnMsg tag])
    else (data, miss, warns ++ [missWarnMsg tag])
  | some txt =>
    let raw := pyStrip txt
    match (if key ∈ SPLIT_KEYS then (pySplitWs raw).head? else some raw) with
    | Option.none =>
      -- raw_value.split()[0] raised IndexError
      (data, miss, warns ++ [convWarnMsg key])
    | some rawv =>
      if hasConv then
        match pyFloat? rawv with
        | some q => (dset data key (.num q), miss, warns)
        | Option.none =>
          -- float(raw_value) raised ValueError
          (data, miss, warns ++ [convWarnMsg key])
      else (dset data key (.str rawv), miss, warns)

/-- `_parse_xml_data`: `Option.none` input models text on which
`ET.fromstring` raises `ParseError`; the error value models the
`UpdateFailed` the method raises in that case.  Returns the parsed data, the
updated `_missing_pv_sensors` set and the warnings logged. -/
def _parse_xml_data (missing : List String) (xml : Option XmlDoc) : Except String PAcc :=
  match xml with
  | Option.none => .error "XML parse error"
  | some root => .ok (XML_FIELDS.foldl (parseStep root) ([], missing, []))

/-- The value `_parse_xml_data` binds to `key` for a single field row, or
`Option.none` when the field is omitted (missing element, empty text, or
conversion failure). -/
def fieldResult (root : XmlDoc) (key tag : String) (hasConv : Bool) : Option Value :=
  match elemText root tag with
  | Option.none => Option.none
  | some txt =>
    let raw := pyStrip txt
    match (if key ∈ SPLIT_KEYS then (pySplitWs raw).head? else some raw) with
    | Option.none => Option.none
    | some rawv =>
      if hasConv then (pyFloat? rawv).map Value.num
      else some (.str rawv)

/-- The warnings logged by one `_parse_xml_data` call (empty on parse
error). -/
def parseWarns (missing : List String) (xml : Option XmlDoc) : List String :=
  match _parse_xml_data missing xml with
  | .ok res => res.2.2
  | .error _ => []

/-- The `_missing_pv_sensors` set after one `_parse_xml_data` call
(unchanged on parse error). -/
def parseMiss (missing : List String) (xml : Option XmlDoc) : List String :=
  match _parse_xml_data missing xml with
  | .ok res => res.2.1
  | .error _ => missing

/-! ## The coordinator state and its atomic operations -/

structure CoordState where
  buffer : String → List ℚ
  interval_last_sample : Option DataMap
  interval_has_sample : Bool
  /-- `DataUpdateCoordinator.data`: the published snapshot. -/
  data : Option DataMap
  /-- `DataUpdateCoordinator.last_update_success`. -/
  last_update_success : Bool

/-- The coordinator right after `__init__` (coordinator.py lines 79-81; the
base `DataUpdateCoordinator` starts with no data and
`last_update_success = True`). -/
def initState : CoordState :=
  { buffer := fun _ => []
    interval_last_sample := Option.none
    interval_has_sample := false
    data := Option.none
    last_update_success := true }

/-- The numeric contribution a sample dict makes to an averaged key's buffer:
`data.get(key)` when it is neither absent, `None`, nor non-numeric. -/
def sampleVal (data : DataMap) (key : String) : Option ℚ :=
  match dget data key with
  | Option.none => Option.none
  | some v => floatPy v

/-- One iteration of the `for key in AVERAGE_KEYS` loop of `_add_sample`
(coordinator.py lines 148-154). -/
def addStep (data : DataMap) (st : CoordState) (key : String) : CoordState :=
  match dget data key with
  | Option.none => st          -- data.get(key) is None: continue
  | some v =>
    match floatPy v with
    | Option.none => st        -- float(None) / float(bad str): skipped with a debug log
    | some q =>
      { st with buffer := fun k => if k = key then st.buffer k ++ [q] else st.buffer k }

/-- `_add_sample` (coordinator.py lines 144-154). -/
def _add_sample (s : CoordState) (data : DataMap) : CoordState :=
  AVERAGE_KEYS.foldl (addStep data)
    { s with interval_last_sample := some data, interval_has_sample := true }

/-- `_clear_buffer` (coordinator.py lines 156-161): the buffer dict has
exactly the `AVERAGE_KEYS` keys, each cleared in place. -/
def _clear_buffer (s : CoordState) : CoordState :=
  { s with
    buffer := fun k => if k ∈ AVERAGE_KEYS then [] else s.buffer k
    interval_last_sample := Option.none
    interval_has_sample := false }

/-- One iteration of the `for key, values in self._buffer.items()` loop of
`_build_mean_data` (coordinator.py lines 169-171): overwrite `key` with the
arithmetic mean when its buffer is non-empty. -/
def meanStep (s : CoordState) (md : DataMap) (key : String) : DataMap :=
  match s.buffer key with
  | [] => md
  | vs => dset md key (.num (vs.sum / (vs.length : ℚ)))

/-- `_build_mean_data` (coordinator.py lines 163-173). -/
def _build_mean_data (s : CoordState) : DataMap :=
  match s.interval_last_sample with
  | Option.none => []
  | some last => AVERAGE_KEYS.foldl (meanStep s) last

/-- `DataUpdateCoordinator.async_set_updated_data`: publish a snapshot. -/
def async_set_updated_data (s : CoordState) (d : DataMap) : CoordState :=
  { s with data := some d, last_update_success := true }

/-- `DataUpdateCoordinator.async_set_update_error`: record a failed update;
the previously published data is kept. -/
def async_set_update_error (s : CoordState) : CoordState :=
  { s with last_update_success := false }

/-- Outcome of one `_async_publish_means` tick, as seen by consumers. -/
inductive PublishResult where
  | published (d : DataMap)
  | updateError (msg : String)
deriving DecidableEq

/-- `_async_publish_means` (coordinator.py lines 132-142).  The lock makes
the tick a single atomic state transformer. -/
def _async_publish_means (s : CoordState) : CoordState × PublishResult :=
  if s.interval_has_sample = false then
    (async_set_update_error s, .updateError "No samples collected")
  else
    let mean_data := _build_mean_data s
    let s1 := _clear_buffer s
    (async_set_updated_data s1 mean_data, .published mean_data)

/-- `_async_poll_device` (coordinator.py lines 121-130): the fetch outcome is
passed in (`Except.error` models a raised `UpdateFailed`, swallowed here). -/
def _async_poll_device (s : CoordState) (fetch : Except String DataMap) : CoordState :=
  match fetch with
  | .error _ => s                 -- logged at debug level, state untouched
  | .ok d => _add_sample s d

/-- `_async_update_data` (coordinator.py lines 114-119): the first-refresh
body; a fetch/parse failure propagates to the caller. -/
def _async_update_data (s : CoordState) (fetch : Except String DataMap) :
    Except String (CoordState × DataMap) :=
  match fetch with
  | .error e => .error e
  | .ok d =>
    let s1 := _add_sample s d
    .ok (s1, _build_mean_data s1)

/-- `DataUpdateCoordinator.async_config_entry_first_refresh` as invoked by
`async_setup_entry` (__init__.py line 37): runs `_async_update_data`, stores
the returned data as the published snapshot on success, and re-raises the
failure (aborting setup) otherwise. -/
def async_config_entry_first_refresh (s : CoordState) (fetch : Except String DataMap) :
    Except String CoordState :=
  match _async_update_data s fetch with
  | .error e => .error e
  | .ok (s1, d) => .ok (async_set_updated_data s1 d)

/-- A sequence of poller ticks (`_async_poll_device`), each with its fetch
outcome. -/
def runPolls (s : CoordState) (polls : List (Except String DataMap)) : CoordState :=
  polls.foldl _async_poll_device s

/-- The values a list of poll outcomes appends to `key`'s buffer: one value
per successful poll whose sample carries a numeric value for `key`. -/
def pollValues (polls : List (Except String DataMap)) (key : String) : List ℚ :=
  polls.filterMap
    (fun p => match p with
      | .error _ => Option.none
      | .ok d => sampleVal d key)

/-- Whether a poll's fetch succeeded. -/
def isOkPoll : Except String DataMap → Bool
  | .ok _ => true
  | .error _ => false

/-- A coordinator state with an empty aggregation buffer: the state right
after `__init__` or right after `_clear_buffer`. -/
def Cleared (s : CoordState) : Prop :=
  (∀ k, s.buffer k = []) ∧ s.interval_has_sample = false ∧
    s.interval_last_sample = Option.none

/-! ## The reachable coordinator states

Each step is one lock-protected critical section (or a no-op path), so the
step relation is exactly the granularity at which other tasks can observe
the shared state. -/

inductive Step : CoordState → CoordState → Prop where
  /-- A `_async_poll_device` tick whose fetch succeeded. -/
  | poll_ok (s : CoordState) (d : DataMap) : Step s (_add_sample s d)
  /-- A `_async_poll_device` tick whose fetch raised `UpdateFailed`:
  swallowed, no shared state touched. -/
  | poll_fail (s : CoordState) : Step s s
  /-- A `_async_publish_means` tick (either branch). -/
  | publish (s : CoordState) : Step s (_async_publish_means s).1
  /-- A successful first refresh (`_async_update_data` via
  `async_config_entry_first_refresh`). -/
  | first_refresh_ok (s : CoordState) (d : DataMap) :
      Step s (async_set_updated_data (_add_sample s d)
        (_build_mean_data (_add_sample s d)))
  /-- A failed first refresh: the fetch error propagates before any shared
  state is touched; the base coordinator records the failure. -/
  | first_refresh_fail (s : CoordState) : Step s (async_set_update_error s)

inductive Reachable : CoordState → Prop where
  | init : Reachable initState
  | step {s s' : CoordState} : Reachable s → Step s s' → Reachable s'

/-- The inductive invariant of the shared aggregation state: keys outside
`AVERAGE_KEYS` never hold buffered values, and a cleared has-sample flag
means a fully empty buffer and no cached last sample. -/
def BufferInv (s : CoordState) : Prop :=
  (∀ k, k ∉ AVERAGE_KEYS → s.buffer k = []) ∧
    (s.interval_has_sample = false →
      (∀ k, s.buffer k = []) ∧ s.interval_last_sample = Option.none)

/-! ## The sensor layer (sensor.py) -/

def SENSOR_KEYS : List String :=
  ["state", "v-grid", "i-grid", "f-grid", "p-ac", "temp", "e-today", "t-today",
   "e-total", "CO2", "t-total", "v-pv1", "i-pv1", "v-pv2", "i-pv2", "v-pv3",
   "i-pv3", "v-pv4", "i-pv4", "v-bus"]

def SENSOR_FLOAT_KEYS : List String :=
  ["v-grid", "i-grid", "p-ac", "temp", "e-today", "t-today", "e-total",
   "t-total", "CO2"]

def SENSOR_RETAIN_LAST_ON_UNAVAILABLE : List String :=
  ["CO2", "e-total", "t-total", "e-today", "t-today"]

/-- The mutable per-sensor state (`_last_value`, `_last_reset_date`); dates
are abstract integers. -/
structure SensorState where
  last_value : Option Value
  last_reset_date : Option ℤ
deriving DecidableEq, Repr

/-- The slice of the coordinator a sensor reads. -/
structure CoordView where
  data : DataMap
  last_update_success : Bool

/-- `SajSununoSensor.available` (sensor.py lines 228-235). -/
def available (key : String) (co : CoordView) : Bool :=
  if key = "state" then co.last_update_success else true

/-- The part of `SajSununoSensor.native_value` after the midnight-reset
check (sensor.py lines 250-268); `Except.error` models an uncaught
exception from `float(value)`. -/
def nvAfterReset (key : String) (st : SensorState) (co : CoordView) :
    Except String (SensorState × Option Value) :=
  if co.last_update_success = false then
    if key = "state" then .ok (st, Option.none)
    else if key ∈ SENSOR_RETAIN_LAST_ON_UNAVAILABLE then
      .ok (st, some (match st.last_value with
        | some v => v
        | Option.none => Value.num 0))
    else .ok (st, some (.num 0))
  else
    match dget co.data key with
    | Option.none => .ok (st, Option.none)        -- key absent: return None
    | some Value.null => .ok (st, Option.none)    -- value is None: return None
    | some v =>
      if key ∈ SENSOR_FLOAT_KEYS then
        match floatPy v with
        | some q => .ok ({ st with last_value := some (.num q) }, some (.num q))
        | Option.none => .error "float conversion failed"
      else .ok ({ st with last_value := some v }, some v)

/-- `SajSununoSensor.native_value` (sensor.py lines 237-268), at an abstract
current date `today`. -/
def native_value (key : String) (st : SensorState) (today : ℤ) (co : CoordView) :
    Except String (SensorState × Option Value) :=
  if key = "e-today" ∨ key = "t-today" then
    if st.last_reset_date = some today then nvAfterReset key st co
    else
      -- new day detected: reset tracking and return 0.0
      .ok ({ last_reset_date := some today, last_value := some (.num 0) },
        some (.num 0))
  else nvAfterReset key st co

/-! ## Concrete example data (used by witnesses and counterexamples) -/

/-- A sample as parsed from a healthy inverter response (subset of fields;
`v-pv1 = 150.0`, `i-pv1 = 8.0`). -/
def sampleA : DataMap :=
  [("state", .str "OK"), ("e-today", .num 10), ("v-grid", .num 230),
   ("v-pv1", .num 150), ("i-pv1", .num 8)]

/-- A later sample (`v-pv1 = 149.0`, `i-pv1 = 8.2`). -/
def sampleB : DataMap :=
  [("state", .str "OK"), ("e-today", .num 12), ("v-grid", .num 231),
   ("v-pv1", .num 149), ("i-pv1", .num (41/5))]

/-- The spec's scenario: a successful poll, a failed poll, a successful
poll. -/
def exPolls : List (Except String DataMap) :=
  [.ok sampleA, .error "Timeout connecting to 192.168.1.1", .ok sampleB]

/-- A healthy device response document with only fields that matter to the
parser scenarios, including `v-pv2` with a trailing unit token. -/
def exDoc : XmlDoc :=
  [⟨"state", some "OK"⟩, ⟨"v-grid", some "230.0"⟩, ⟨"i-grid", some "5.0"⟩,
   ⟨"f-grid", some "50.0"⟩, ⟨"p-ac", some "1000.0"⟩, ⟨"temp", some "34.0"⟩,
   ⟨"e-today", some "10.0"⟩, ⟨"t-today", some "240"⟩, ⟨"e-total", some "1200.0"⟩,
   ⟨"CO2", some "44.0"⟩, ⟨"t-total", some "3600"⟩,
   ⟨"i-pv1", some "8.0"⟩, ⟨"v-pv2", some " 231.4 V "⟩, ⟨"i-pv2", some "7.8"⟩,
   ⟨"v-bus", some "400.0"⟩]

/-! # Lemmas -/

theorem dget_dset_self (d : DataMap) (k : String) (v : Value) :
    dget (dset d k v) k = some v := by
  induction d with
  | nil => simp [dset, dget]
  | cons p rest ih =>
    obtain ⟨k', v'⟩ := p
    by_cases h : k' = k
    · simp [dset, dget, h]
    · simp [dset, dget, h, ih]

theorem dget_dset_ne (d : DataMap) (k k' : String) (v : Value) (h : k' ≠ k) :
    dget (dset d k' v) k = dget d k := by
  induction d with
  | nil => simp [dset, dget, h]
  | cons p rest ih =>
    obtain ⟨k₀, v₀⟩ := p
    by_cases h0 : k₀ = k'
    · subst h0
      simp [dset, dget, h]
    · by_cases h1 : k₀ = k
      · simp [dset, dget, h0, h1, Ne.symm h]
      · simp [dset, dget, h0, h1, ih]

/-! ## `_add_sample` -/

theorem addStep_buffer_self (data : DataMap) (st : CoordState) (key : String) :
    (addStep data st key).buffer key = st.buffer key ++ (sampleVal data key).toList := by
  rcases h1 : dget data key with _ | v
  · simp [addStep, sampleVal, h1]
  · rcases h2 : floatPy v with _ | q
    · simp [addStep, sampleVal, h1, h2]
    · simp [addStep, sampleVal, h1, h2]

theorem addStep_buffer_ne (data : DataMap) (st : CoordState) (key k : String)
    (h : k ≠ key) : (addStep data st key).buffer k = st.buffer k := by
  rcases h1 : dget data key with _ | v
  · simp [addStep, h1]
  · rcases h2 : floatPy v with _ | q
    · simp [addStep, h1, h2]
    · simp [addStep, h1, h2, h]

theorem addStep_rest (data : DataMap) (st : CoordState) (key : String) :
    (addStep data st key).interval_last_sample = st.interval_last_sample ∧
      (addStep data st key).interval_has_sample = st.interval_has_sample ∧
      (addStep data st key).data = st.data ∧
      (addStep data st key).last_update_success = st.last_update_success := by
  rcases h1 : dget data key with _ | v
  · simp [addStep, h1]
  · rcases h2 : floatPy v with _ | q
    · simp [addStep, h1, h2]
    · simp [addStep, h1, h2]

theorem foldl_addStep_buffer_not_mem (data : DataMap) (L : List String)
    (st : CoordState) (k : String) (hk : k ∉ L) :
    (L.foldl (addStep data) st).buffer k = st.buffer k := by
  induction L generalizing st with
  | nil => rfl
  | cons key rest ih =>
    have hne : k ≠ key := fun h => hk (h ▸ List.mem_cons_self key rest)
    have hrest : k ∉ rest := fun h => hk (List.mem_cons_of_mem key h)
    simp only [List.foldl_cons]
    rw [ih _ hrest, addStep_buffer_ne _ _ _ _ hne]

theorem foldl_addStep_buffer_mem (data : DataMap) (L : List String)
    (st : CoordState) (k : String) (hk : k ∈ L) (hnd : L.Nodup) :
    (L.foldl (addStep data) st).buffer k
      = st.buffer k ++ (sampleVal data k).toList := by
  induction L generalizing st with
  | nil => cases hk
  | cons key rest ih =>
    simp only [List.foldl_cons]
    rcases List.mem_cons.mp hk with h | h
    · subst h
      have hnot : k ∉ rest := (List.nodup_cons.mp hnd).1
      rw [foldl_addStep_buffer_not_mem _ _ _ _ hnot, addStep_buffer_self]
    · have hne : k ≠ key := fun heq => (List.nodup_cons.mp hnd).1 (heq ▸ h)
      rw [ih _ h (List.nodup_cons.mp hnd).2, addStep_buffer_ne _ _ _ _ hne]

theorem foldl_addStep_rest (data : DataMap) (L : List String) (st : CoordState) :
    (L.foldl (addStep data) st).interval_last_sample = st.interval_last_sample ∧
      (L.foldl (addStep data) st).interval_has_sample = st.interval_has_sample ∧
      (L.foldl (addStep data) st).data = st.data ∧
      (L.foldl (addStep data) st).last_update_success = st.last_update_success := by
  induction L generalizing st with
  | nil => exact ⟨rfl, rfl, rfl, rfl⟩
  | cons key rest ih =>
    simp only [List.foldl_cons]
    obtain ⟨h1, h2, h3, h4⟩ := ih (addStep data st key)
    obtain ⟨g1, g2, g3, g4⟩ := addStep_rest data st key
    exact ⟨h1.trans g1, h2.trans g2, h3.trans g3, h4.trans g4⟩

theorem AVERAGE_KEYS_nodup : AVERAGE_KEYS.Nodup := by decide

theorem add_sample_last (s : CoordState) (d : DataMap) :
    (_add_sample s d).interval_last_sample = some d :=
  (foldl_addStep_rest d AVERAGE_KEYS _).1

theorem add_sample_flag (s : CoordState) (d : DataMap) :
    (_add_sample s d).interval_has_sample = true :=
  (foldl_addStep_rest d AVERAGE_KEYS _).2.1

theorem add_sample_data (s : CoordState) (d : DataMap) :
    (_add_sample s d).data = s.data :=
  (foldl_addStep_rest d AVERAGE_KEYS _).2.2.1

theorem add_sample_lus (s : CoordState) (d : DataMap) :
    (_add_sample s d).last_update_success = s.last_update_success :=
  (foldl_addStep_rest d AVERAGE_KEYS _).2.2.2

theorem add_sample_buffer_mem (s : CoordState) (d : DataMap) (k : String)
    (hk : k ∈ AVERAGE_KEYS) :
    (_add_sample s d).buffer k = s.buffer k ++ (sampleVal d k).toList :=
  foldl_addStep_buffer_mem d AVERAGE_KEYS _ k hk AVERAGE_KEYS_nodup

theorem add_sample_buffer_not_mem (s : CoordState) (d : DataMap) (k : String)
    (hk : k ∉ AVERAGE_KEYS) :
    (_add_sample s d).buffer k = s.buffer k :=
  foldl_addStep_buffer_not_mem d AVERAGE_KEYS _ k hk

/-! ## `runPolls` -/

theorem runPolls_buffer (polls : List (Except String DataMap)) (s : CoordState)
    (k : String) (hk : k ∈ AVERAGE_KEYS) :
    (runPolls s polls).buffer k = s.buffer k ++ pollValues polls k := by
  induction polls generalizing s with
  | nil => simp [runPolls, pollValues]
  | cons p rest ih =>
    cases p with
    | error e =>
      simp only [runPolls, List.foldl_cons, pollValues, List.filterMap_cons]
      exact ih s
    | ok d =>
      simp only [runPolls, List.foldl_cons, pollValues, List.filterMap_cons] at ih ⊢
      show (runPolls (_async_poll_device s (.ok d)) rest).buffer k = _
      simp only [_async_poll_device]
      rw [show runPolls (_add_sample s d) rest = rest.foldl _async_poll_device (_add_sample s d) from rfl] at *
      cases hval : sampleVal d k with
      | none =>
        rw [ih (_add_sample s d), add_sample_buffer_mem s d k hk, hval]
        simp
      | some q =>
        rw [ih (_add_sample s d), add_sample_buffer_mem s d k hk, hval]
        simp

theorem runPolls_flag (polls : List (Except String DataMap)) (s : CoordState) :
    (runPolls s polls).interval_has_sample
      = (s.interval_has_sample || polls.any isOkPoll) := by
  induction polls generalizing s with
  | nil => simp [runPolls]
  | cons p rest ih =>
    cases p with
    | error e =>
      simp only [runPolls, List.foldl_cons, List.any_cons, isOkPoll]
      rw [show rest.foldl _async_poll_device (_async_poll_device s (.error e))
        = runPolls (_async_poll_device s (.error e)) rest from rfl, ih]
      rfl
    | ok d =>
      simp only [runPolls, List.foldl_cons, List.any_cons, isOkPoll]
      rw [show rest.foldl _async_poll_device (_async_poll_device s (.ok d))
        = runPolls (_async_poll_device s (.ok d)) rest from rfl, ih]
      simp [_async_poll_device, add_sample_flag]

theorem runPolls_last_isSome (polls : List (Except String DataMap)) (s : CoordState)
    (h : s.interval_last_sample.isSome = true ∨ polls.any isOkPoll = true) :
    (runPolls s polls).interval_last_sample.isSome = true := by
  induction polls generalizing s with
  | nil =>
    rcases h with h | h
    · exact h
    · simp at h
  | cons p rest ih =>
    cases p with
    | error e =>
      show (runPolls (_async_poll_device s (.error e)) rest).interval_last_sample.isSome = true
      apply ih
      rcases h with h | h
      · exact Or.inl h
      · simp only [List.any_cons, isOkPoll, Bool.false_or] at h
        exact Or.inr h
    | ok d =>
      show (runPolls (_async_poll_device s (.ok d)) rest).interval_last_sample.isSome = true
      apply ih
      left
      simp [_async_poll_device, add_sample_last]

/-! ## `_build_mean_data` -/

theorem foldl_meanStep_not_mem (s : CoordState) (L : List String) (md : DataMap)
    (k : String) (hk : k ∉ L) :
    dget (L.foldl (meanStep s) md) k = dget md k := by
  induction L generalizing md with
  | nil => rfl
  | cons key rest ih =>
    have hne : k ≠ key := fun h => hk (h ▸ List.mem_cons_self key rest)
    have hrest : k ∉ rest := fun h => hk (List.mem_cons_of_mem key h)
    simp only [List.foldl_cons]
    rw [ih _ hrest]
    rcases hb : s.buffer key with _ | ⟨a, l⟩
    · simp [meanStep, hb]
    · simp [meanStep, hb, dget_dset_ne _ _ _ _ (Ne.symm hne)]

theorem foldl_meanStep_mem (s : CoordState) (L : List String) (md : DataMap)
    (k : String) (hk : k ∈ L) (hnd : L.Nodup) (vs : List ℚ)
    (hb : s.buffer k = vs) (hne : vs ≠ []) :
    dget (L.foldl (meanStep s) md) k = some (.num (vs.sum / (vs.length : ℚ))) := by
  induction L generalizing md with
  | nil => cases hk
  | cons key rest ih =>
    simp only [List.foldl_cons]
    rcases List.mem_cons.mp hk with h | h
    · subst h
      rw [foldl_meanStep_not_mem _ _ _ _ (List.nodup_cons.mp hnd).1]
      cases vs with
      | nil => exact absurd rfl hne
      | cons a l => simp [meanStep, hb, dget_dset_self]
    · exact ih _ h (List.nodup_cons.mp hnd).2

theorem build_mean_get_avg (s : CoordState) (last : DataMap)
    (hlast : s.interval_last_sample = some last) (k : String)
    (hk : k ∈ AVERAGE_KEYS) (vs : List ℚ) (hb : s.buffer k = vs) (hne : vs ≠ []) :
    dget (_build_mean_data s) k = some (.num (vs.sum / (vs.length : ℚ))) := by
  unfold _build_mean_data
  rw [hlast]
  exact foldl_meanStep_mem s AVERAGE_KEYS last k hk AVERAGE_KEYS_nodup vs hb hne

theorem build_mean_get_nonavg (s : CoordState) (last : DataMap)
    (hlast : s.interval_last_sample = some last) (k : String)
    (hk : k ∉ AVERAGE_KEYS) :
    dget (_build_mean_data s) k = dget last k := by
  unfold _build_mean_data
  rw [hlast]
  exact foldl_meanStep_not_mem s AVERAGE_KEYS last k hk

theorem pollValues_nil_of_no_ok (polls : List (Except String DataMap)) (key : String)
    (h : polls.any isOkPoll = false) : pollValues polls key = [] := by
  induction polls with
  | nil => rfl
  | cons p rest ih =>
    cases p with
    | error e =>
      simp only [List.any_cons, isOkPoll, Bool.false_or] at h
      simp only [pollValues, List.filterMap_cons]
      exact ih h
    | ok d => simp [isOkPoll] at h

/-! # The claims -/

/-- C1: at a publish tick with the has-sample flag set, every averaged-field
key whose buffer holds exactly the numeric values contributed by the
successful polls since the last clear is published as their arithmetic mean,
regardless of how many failed polls were interleaved. -/
theorem C1_publishes_mean_of_successful_polls
    (s0 : CoordState) (h0 : Cleared s0)
    (polls : List (Except String DataMap)) (key : String) (hk : key ∈ AVERAGE_KEYS)
    (vs : List ℚ) (hvs : pollValues polls key = vs) (hne : vs ≠ []) :
    ∃ d, (_async_publish_means (runPolls s0 polls)).2 = .published d ∧
      (_async_publish_means (runPolls s0 polls)).1.data = some d ∧
      dget d key = some (.num (vs.sum / (vs.length : ℚ))) := by
  obtain ⟨hb0, hf0, hc0⟩ := h0
  have hbuf : (runPolls s0 polls).buffer key = vs := by
    rw [runPolls_buffer polls s0 key hk, hb0 key, hvs]
    simp
  have hany : polls.any isOkPoll = true := by
    cases hcase : polls.any isOkPoll with
    | true => rfl
    | false => exact absurd (hvs.symm.trans (pollValues_nil_of_no_ok polls key hcase)) hne
  have hflag : (runPolls s0 polls).interval_has_sample = true := by
    rw [runPolls_flag, hf0, hany]
    rfl
  obtain ⟨last, hlast⟩ :=
    Option.isSome_iff_exists.mp (runPolls_last_isSome polls s0 (Or.inr hany))
  refine ⟨_build_mean_data (runPolls s0 polls), ?_, ?_, ?_⟩
  · simp [_async_publish_means, hflag]
  · simp [_async_publish_means, hflag, async_set_updated_data]
  · exact build_mean_get_avg _ last hlast key hk vs hbuf hne

/-- C1 witness: the spec's scenario — polls `i-pv1 = 8.0`, a failed poll,
`i-pv1 = 8.2` publish `i-pv1 = 8.1`, and `v-pv1 = (150+149)/2 = 149.5`. -/
theorem C1_witness :
    ∃ d, (_async_publish_means (runPolls initState exPolls)).2 = .published d ∧
      (_async_publish_means (runPolls initState exPolls)).1.data = some d ∧
      dget d "i-pv1" = some (.num (81/10)) := by
  obtain ⟨d, h1, h2, h3⟩ :=
    C1_publishes_mean_of_successful_polls initState ⟨fun _ => rfl, rfl, rfl⟩
      exPolls "i-pv1" (by decide) (pollValues exPolls "i-pv1") rfl (by decide)
  refine ⟨d, h1, h2, ?_⟩
  have hv : pollValues exPolls "i-pv1" = [8, 41/5] := by
    simp [pollValues, exPolls, sampleA, sampleB, dget, sampleVal, floatPy]
  rw [h3, hv]
  norm_num

/-- C2: a publish tick with no samples signals the update error
"No samples collected", publishes nothing, leaves the snapshot and the
buffer/flag/cache untouched, and a second tick on the still-empty buffer
errors again without a spurious publish. -/
theorem C2_no_samples_signals_error (s : CoordState)
    (h : s.interval_has_sample = false) :
    (_async_publish_means s).2 = .updateError "No samples collected" ∧
      (_async_publish_means s).1.data = s.data ∧
      (_async_publish_means s).1.buffer = s.buffer ∧
      (_async_publish_means s).1.interval_has_sample = s.interval_has_sample ∧
      (_async_publish_means s).1.interval_last_sample = s.interval_last_sample ∧
      (_async_publish_means (_async_publish_means s).1).2
        = .updateError "No samples collected" ∧
      (_async_publish_means (_async_publish_means s).1).1.data = s.data := by
  simp [_async_publish_means, async_set_update_error, h]

/-- C2 witness: the freshly initialized coordinator. -/
theorem C2_witness :
    (_async_publish_means initState).2 = .updateError "No samples collected" ∧
      (_async_publish_means initState).1.data = initState.data ∧
      (_async_publish_means initState).1.buffer = initState.buffer ∧
      (_async_publish_means initState).1.interval_has_sample
        = initState.interval_has_sample ∧
      (_async_publish_means initState).1.interval_last_sample
        = initState.interval_last_sample ∧
      (_async_publish_means (_async_publish_means initState).1).2
        = .updateError "No samples collected" ∧
      (_async_publish_means (_async_publish_means initState).1).1.data
        = initState.data :=
  C2_no_samples_signals_error initState rfl

/-- C3: in a published snapshot, every non-averaged field equals exactly the
value of the most recent successfully parsed sample (present iff present
there); it is never replaced by an average. -/
theorem C3_nonaveraged_passthrough (s : CoordState) (key : String)
    (hk : key ∉ AVERAGE_KEYS) (last : DataMap)
    (hlast : s.interval_last_sample = some last)
    (hs : s.interval_has_sample = true) :
    ∃ d, (_async_publish_means s).2 = .published d ∧
      (_async_publish_means s).1.data = some d ∧
      dget d key = dget last key := by
  refine ⟨_build_mean_data s, ?_, ?_, ?_⟩
  · simp [_async_publish_means, hs]
  · simp [_async_publish_means, hs, async_set_updated_data]
  · exact build_mean_get_nonavg s last hlast key hk

/-- C3 witness: the `state` field of a buffered sample passes through the
publish unchanged. -/
theorem C3_witness :
    ∃ d, (_async_publish_means (_add_sample initState sampleA)).2 = .published d ∧
      (_async_publish_means (_add_sample initState sampleA)).1.data = some d ∧
      dget d "state" = some (.str "OK") := by
  obtain ⟨d, h1, h2, h3⟩ :=
    C3_nonaveraged_passthrough (_add_sample initState sampleA) "state" (by decide)
      sampleA (add_sample_last _ _) (add_sample_flag _ _)
  exact ⟨d, h1, h2, by rw [h3]; decide⟩

/-- C4: after a successful publish, every averaged-field buffer is empty,
the has-sample flag is false and the last-sample cache is cleared, and the
published snapshot is the mean data built from the pre-clear state (the
whole tick runs as one critical section under the lock). -/
theorem C4_publish_clears_buffer (s : CoordState)
    (hs : s.interval_has_sample = true) :
    (∀ k ∈ AVERAGE_KEYS, (_async_publish_means s).1.buffer k = []) ∧
      (_async_publish_means s).1.interval_has_sample = false ∧
      (_async_publish_means s).1.interval_last_sample = Option.none ∧
      (_async_publish_means s).1.data = some (_build_mean_data s) ∧
      (_async_publish_means s).2 = .published (_build_mean_data s) := by
  refine ⟨?_, ?_, ?_, ?_, ?_⟩
  · intro k hk
    simp [_async_publish_means, hs, _clear_buffer, async_set_updated_data, hk]
  · simp [_async_publish_means, hs, _clear_buffer, async_set_updated_data]
  · simp [_async_publish_means, hs, _clear_buffer, async_set_updated_data]
  · simp [_async_publish_means, hs, _clear_buffer, async_set_updated_data]
  · simp [_async_publish_means, hs]

/-- C4 witness: publishing after one buffered sample clears everything. -/
theorem C4_witness :
    (∀ k ∈ AVERAGE_KEYS,
        (_async_publish_means (_add_sample initState sampleA)).1.buffer k = []) ∧
      (_async_publish_means (_add_sample initState sampleA)).1.interval_has_sample
        = false ∧
      (_async_publish_means (_add_sample initState sampleA)).1.interval_last_sample
        = Option.none ∧
      (_async_publish_means (_add_sample initState sampleA)).1.data
        = some (_build_mean_data (_add_sample initState sampleA)) ∧
      (_async_publish_means (_add_sample initState sampleA)).2
        = .published (_build_mean_data (_add_sample initState sampleA)) :=
  C4_publish_clears_buffer (_add_sample initState sampleA) (add_sample_flag _ _)

/-- C5 counterexample: the first refresh does not bypass the buffer.  On the
fresh coordinator, `_async_update_data` with a successful fetch of `sampleA`
records the sample: the has-sample flag flips to true, `v-grid`'s buffer
gains `230.0`, and the last-sample cache holds the sample — all three were
untouched before. -/
theorem C5_counterexample :
    initState.interval_has_sample = false ∧
      initState.buffer "v-grid" = [] ∧
      initState.interval_last_sample = Option.none ∧
      _async_update_data initState (.ok sampleA)
        = .ok (_add_sample initState sampleA,
            _build_mean_data (_add_sample initState sampleA)) ∧
      (_add_sample initState sampleA).interval_has_sample = true ∧
      (_add_sample initState sampleA).buffer "v-grid" = [230] ∧
      (_add_sample initState sampleA).interval_last_sample = some sampleA := by
  refine ⟨rfl, rfl, rfl, rfl, add_sample_flag _ _, ?_, add_sample_last _ _⟩
  rw [add_sample_buffer_mem _ _ _ (by decide)]
  simp [initState, sampleVal, sampleA, dget, floatPy]

/-- C5 (amended): the startup first refresh performs a single fetch+parse
whose sample is recorded through the normal sampling path — setting the
last-sample cache and the has-sample flag and appending the averaged values
to the buffer — and publishes the mean data built from that state as the
initial snapshot; a fetch or parse failure propagates to the caller, fatal
to setup. -/
theorem C5_first_refresh_records_sample (s : CoordState) (d : DataMap) (e : String) :
    (∃ s1, async_config_entry_first_refresh s (.ok d) = .ok s1 ∧
        s1.data = some (_build_mean_data (_add_sample s d)) ∧
        s1.last_update_success = true ∧
        s1.interval_has_sample = true ∧
        s1.interval_last_sample = some d ∧
        (∀ k ∈ AVERAGE_KEYS, s1.buffer k = s.buffer k ++ (sampleVal d k).toList)) ∧
      async_config_entry_first_refresh s (.error e) = .error e := by
  refine ⟨⟨async_set_updated_data (_add_sample s d)
      (_build_mean_data (_add_sample s d)), rfl, rfl, rfl, ?_, ?_, ?_⟩, rfl⟩
  · exact add_sample_flag s d
  · exact add_sample_last s d
  · intro k hk
    exact add_sample_buffer_mem s d k hk

theorem publish_state_false (s : CoordState) (h : s.interval_has_sample = false) :
    _async_publish_means s
      = (async_set_update_error s, .updateError "No samples collected") := by
  simp [_async_publish_means, h]

theorem publish_state_true (s : CoordState) (h : s.interval_has_sample = true) :
    _async_publish_means s
      = (async_set_updated_data (_clear_buffer s) (_build_mean_data s),
          .published (_build_mean_data s)) := by
  simp [_async_publish_means, h]

/-- One atomic critical section preserves the buffer invariant. -/
theorem BufferInv_step {s s' : CoordState} (hinv : BufferInv s) (hstep : Step s s') :
    BufferInv s' := by
  obtain ⟨hout, hempty⟩ := hinv
  cases hstep with
  | poll_ok d =>
    constructor
    · intro k hk
      rw [add_sample_buffer_not_mem s d k hk]
      exact hout k hk
    · intro hflag
      rw [add_sample_flag s d] at hflag
      cases hflag
  | poll_fail => exact ⟨hout, hempty⟩
  | publish =>
    cases hf : s.interval_has_sample with
    | false =>
      rw [publish_state_false s hf]
      exact ⟨hout, fun _ => hempty hf⟩
    | true =>
      rw [publish_state_true s hf]
      constructor
      · intro k hk
        show (if k ∈ AVERAGE_KEYS then [] else s.buffer k) = []
        rw [if_neg hk]
        exact hout k hk
      · intro _
        refine ⟨?_, rfl⟩
        intro k
        show (if k ∈ AVERAGE_KEYS then [] else s.buffer k) = []
        by_cases hk : k ∈ AVERAGE_KEYS
        · rw [if_pos hk]
        · rw [if_neg hk]
          exact hout k hk
  | first_refresh_ok d =>
    constructor
    · intro k hk
      show (_add_sample s d).buffer k = []
      rw [add_sample_buffer_not_mem s d k hk]
      exact hout k hk
    · intro hflag
      have hflag' : (_add_sample s d).interval_has_sample = false := hflag
      rw [add_sample_flag s d] at hflag'
      cases hflag'
  | first_refresh_fail => exact ⟨hout, hempty⟩

theorem BufferInv_reachable {s : CoordState} (h : Reachable s) : BufferInv s := by
  induction h with
  | init =>
    refine ⟨fun _ _ => rfl, fun _ => ⟨fun _ => rfl, rfl⟩⟩
  | step _ hstep ih => exact BufferInv_step ih hstep

/-- C9: over all reachable coordinator states — mutated only by the atomic
lock-protected critical sections of the step relation — a cleared has-sample
flag implies every averaged-field buffer is empty and the last-sample cache
is `None`, and a non-empty buffer implies the flag is set. -/
theorem C9_buffer_flag_invariant (s : CoordState) (h : Reachable s) :
    (s.interval_has_sample = false →
      (∀ k ∈ AVERAGE_KEYS, s.buffer k = []) ∧
        s.interval_last_sample = Option.none) ∧
      (∀ k, s.buffer k ≠ [] → s.interval_has_sample = true) := by
  obtain ⟨hout, hempty⟩ := BufferInv_reachable h
  constructor
  · intro hflag
    exact ⟨fun k _ => (hempty hflag).1 k, (hempty hflag).2⟩
  · intro k hk
    cases hcase : s.interval_has_sample with
    | true => rfl
    | false => exact absurd ((hempty hcase).1 k) hk

/-- C9 witness: a concrete reachable state — two poll ticks (one failed) and
a publish on the fresh coordinator. -/
theorem C9_witness :
    ((_async_publish_means (runPolls initState exPolls)).1.interval_has_sample = false →
      (∀ k ∈ AVERAGE_KEYS,
          (_async_publish_means (runPolls initState exPolls)).1.buffer k = []) ∧
        (_async_publish_means (runPolls initState exPolls)).1.interval_last_sample
          = Option.none) ∧
      (∀ k, (_async_publish_means (runPolls initState exPolls)).1.buffer k ≠ [] →
        (_async_publish_means (runPolls initState exPolls)).1.interval_has_sample
          = true) := by
  have hreach : Reachable (_async_publish_means (runPolls initState exPolls)).1 := by
    have h0 : Reachable initState := Reachable.init
    have h1 : Reachable (runPolls initState exPolls) := by
      have ha : Reachable (_add_sample initState sampleA) :=
        Reachable.step h0 (Step.poll_ok initState sampleA)
      have hb : Reachable (_add_sample (_add_sample initState sampleA) sampleB) :=
        Reachable.step (Reachable.step ha (Step.poll_fail _))
          (Step.poll_ok (_add_sample initState sampleA) sampleB)
      exact hb
    exact Reachable.step h1 (Step.publish _)
  exact C9_buffer_flag_invariant _ hreach

/-- C10: at the sensor interface, when the coordinator's last update failed,
the `state` sensor is unavailable with value `None`; every other sensor stays
available; `CO2`, `e-total` and `t-total` return the last successfully
observed value (0.0 if none was ever observed); and every other non-daily
sensor returns 0.0 instead of the last published snapshot value. -/
theorem C10_sensor_failure_values (st : SensorState) (today : ℤ) (co : CoordView)
    (h : co.last_update_success = false) :
    available "state" co = false ∧
      native_value "state" st today co = .ok (st, Option.none) ∧
      (∀ k, k ≠ "state" → available k co = true) ∧
      (∀ k, k ∈ (["CO2", "e-total", "t-total"] : List String) →
        native_value k st today co
          = .ok (st, some (match st.last_value with
              | some v => v
              | Option.none => Value.num 0))) ∧
      (∀ k, k ∈ SENSOR_KEYS →
        k ∉ (["state", "CO2", "e-total", "t-total", "e-today", "t-today"] :
          List String) →
        native_value k st today co = .ok (st, some (.num 0))) := by
  refine ⟨?_, ?_, ?_, ?_, ?_⟩
  · simp [available, h]
  · simp [native_value, nvAfterReset, h]
  · intro k hk
    simp [available, hk]
  · intro k hk
    fin_cases hk <;> simp [native_value, nvAfterReset, h,
      SENSOR_RETAIN_LAST_ON_UNAVAILABLE]
  · intro k hk hnot
    fin_cases hk <;>
      first
        | exact absurd (by decide) hnot
        | simp [native_value, nvAfterReset, h, SENSOR_RETAIN_LAST_ON_UNAVAILABLE]

/-- C10 witness: a never-updated sensor against a failed coordinator. -/
theorem C10_witness :
    available "state" ⟨[], false⟩ = false ∧
      native_value "state" ⟨Option.none, Option.none⟩ 0 ⟨[], false⟩
        = .ok (⟨Option.none, Option.none⟩, Option.none) ∧
      (∀ k, k ≠ "state" → available k ⟨[], false⟩ = true) ∧
      (∀ k, k ∈ (["CO2", "e-total", "t-total"] : List String) →
        native_value k ⟨Option.none, Option.none⟩ 0 ⟨[], false⟩
          = .ok (⟨Option.none, Option.none⟩,
              some (match (Option.none : Option Value) with
                | some v => v
                | Option.none => Value.num 0))) ∧
      (∀ k, k ∈ SENSOR_KEYS →
        k ∉ (["state", "CO2", "e-total", "t-total", "e-today", "t-today"] :
          List String) →
        native_value k ⟨Option.none, Option.none⟩ 0 ⟨[], false⟩
          = .ok (⟨Option.none, Option.none⟩, some (.num 0))) :=
  C10_sensor_failure_values ⟨Option.none, Option.none⟩ 0 ⟨[], false⟩ rfl

/-! ## Parser lemmas -/

theorem XML_FIELDS_keys_nodup : (XML_FIELDS.map (fun f => f.1)).Nodup := by decide

theorem XML_FIELDS_tag_eq_key : ∀ f ∈ XML_FIELDS, f.2.1 = f.1 := by decide

theorem pvWarnMsg_inj {a b : String} (h : pvWarnMsg a = pvWarnMsg b) : a = b := by
  have hd := congrArg String.data h
  simp [pvWarnMsg, String.data_append] at hd
  exact String.ext hd

theorem missWarnMsg_ne_pvWarnMsg (a b : String) : missWarnMsg a ≠ pvWarnMsg b := by
  intro h
  have hd := congrArg String.data h
  simp [missWarnMsg, pvWarnMsg, String.data_append] at hd

theorem convWarnMsg_ne_pvWarnMsg (a b : String) : convWarnMsg a ≠ pvWarnMsg b := by
  intro h
  have hd := congrArg String.data h
  simp [convWarnMsg, pvWarnMsg, String.data_append] at hd

/-- The data component of one parse-loop iteration, characterized through
`fieldResult`. -/
theorem parseStep_data (root : XmlDoc) (st : PAcc) (k t : String) (c : Bool) :
    (parseStep root st (k, t, c)).1
      = (match fieldResult root k t c with
          | Option.none => st.1
          | some v => dset st.1 k v) := by
  obtain ⟨data, miss, warns⟩ := st
  rcases h1 : elemText root t with _ | txt
  · rcases h2 : pvPrefix k with _ | _
    · simp [parseStep, fieldResult, h1, h2]
    · by_cases h3 : k ∈ miss
      · simp [parseStep, fieldResult, h1, h2, h3]
      · simp [parseStep, fieldResult, h1, h2, h3]
  · rcases h2 : (if k ∈ SPLIT_KEYS then (pySplitWs (pyStrip txt)).head? else some (pyStrip txt))
      with _ | rawv
    · simp [parseStep, fieldResult, h1, h2]
    · cases c with
      | false => simp [parseStep, fieldResult, h1, h2]
      | true =>
        rcases h3 : pyFloat? rawv with _ | q
        · simp [parseStep, fieldResult, h1, h2, h3]
        · simp [parseStep, fieldResult, h1, h2, h3]

/-- One parse-loop iteration only appends to the warnings list. -/
theorem parseStep_warns_append (root : XmlDoc) (st : PAcc) (f : String × String × Bool) :
    ∃ extra, (parseStep root st f).2.2 = st.2.2 ++ extra := by
  obtain ⟨data, miss, warns⟩ := st
  obtain ⟨k, t, c⟩ := f
  rcases h1 : elemText root t with _ | txt
  · rcases h2 : pvPrefix k with _ | _
    · exact ⟨[missWarnMsg t], by simp [parseStep, h1, h2]⟩
    · by_cases h3 : k ∈ miss
      · exact ⟨[], by simp [parseStep, h1, h2, h3]⟩
      · exact ⟨[pvWarnMsg t], by simp [parseStep, h1, h2, h3]⟩
  · rcases h2 : (if k ∈ SPLIT_KEYS then (pySplitWs (pyStrip txt)).head? else some (pyStrip txt))
      with _ | rawv
    · exact ⟨[convWarnMsg k], by simp [parseStep, h1, h2]⟩
    · cases c with
      | false => exact ⟨[], by simp [parseStep, h1, h2]⟩
      | true =>
        rcases h3 : pyFloat? rawv with _ | q
        · exact ⟨[convWarnMsg k], by simp [parseStep, h1, h2, h3]⟩
        · exact ⟨[], by simp [parseStep, h1, h2, h3]⟩

/-- One parse-loop iteration only appends (at most its own key) to the
missing-PV set. -/
theorem parseStep_miss_append (root : XmlDoc) (st : PAcc) (f : String × String × Bool) :
    (parseStep root st f).2.1 = st.2.1 ∨
      (parseStep root st f).2.1 = st.2.1 ++ [f.1] := by
  obtain ⟨data, miss, warns⟩ := st
  obtain ⟨k, t, c⟩ := f
  rcases h1 : elemText root t with _ | txt
  · rcases h2 : pvPrefix k with _ | _
    · exact Or.inl (by simp [parseStep, h1, h2])
    · by_cases h3 : k ∈ miss
      · exact Or.inl (by simp [parseStep, h1, h2, h3])
      · exact Or.inr (by simp [parseStep, h1, h2, h3])
  · rcases h2 : (if k ∈ SPLIT_KEYS then (pySplitWs (pyStrip txt)).head? else some (pyStrip txt))
      with _ | rawv
    · exact Or.inl (by simp [parseStep, h1, h2])
    · cases c with
      | false => exact Or.inl (by simp [parseStep, h1, h2])
      | true =>
        rcases h3 : pyFloat? rawv with _ | q
        · exact Or.inl (by simp [parseStep, h1, h2, h3])
        · exact Or.inl (by simp [parseStep, h1, h2, h3])

theorem foldl_parseStep_warns_mono (root : XmlDoc) (L : List (String × String × Bool))
    (st : PAcc) (w : String) (h : w ∈ st.2.2) :
    w ∈ (L.foldl (parseStep root) st).2.2 := by
  induction L generalizing st with
  | nil => exact h
  | cons f rest ih =>
    simp only [List.foldl_cons]
    apply ih
    obtain ⟨extra, hex⟩ := parseStep_warns_append root st f
    rw [hex]
    exact List.mem_append_left _ h

theorem foldl_parseStep_miss_mono (root : XmlDoc) (L : List (String × String × Bool))
    (st : PAcc) (k : String) (h : k ∈ st.2.1) :
    k ∈ (L.foldl (parseStep root) st).2.1 := by
  induction L generalizing st with
  | nil => exact h
  | cons f rest ih =>
    simp only [List.foldl_cons]
    apply ih
    rcases parseStep_miss_append root st f with heq | heq
    · rw [heq]; exact h
    · rw [heq]; exact List.mem_append_left _ h

theorem foldl_parseStep_miss_not_mem (root : XmlDoc)
    (L : List (String × String × Bool)) (st : PAcc) (k : String)
    (h : k ∉ st.2.1) (hkeys : k ∉ L.map (fun f => f.1)) :
    k ∉ (L.foldl (parseStep root) st).2.1 := by
  induction L generalizing st with
  | nil => exact h
  | cons f rest ih =>
    simp only [List.foldl_cons]
    have hk1 : k ≠ f.1 := fun heq => hkeys (by simp [heq])
    have hrest : k ∉ rest.map (fun f => f.1) := fun hmem => hkeys (by simp; right; simpa using hmem)
    refine ih _ ?_ hrest
    rcases parseStep_miss_append root st f with heq | heq
    · rw [heq]; exact h
    · rw [heq]
      intro hmem
      rcases List.mem_append.mp hmem with hmem | hmem
      · exact h hmem
      · simp at hmem
        exact hk1 hmem

theorem foldl_parseStep_data_not_mem (root : XmlDoc)
    (L : List (String × String × Bool)) (st : PAcc) (k : String)
    (hkeys : k ∉ L.map (fun f => f.1)) :
    dget (L.foldl (parseStep root) st).1 k = dget st.1 k := by
  induction L generalizing st with
  | nil => rfl
  | cons f rest ih =>
    obtain ⟨k', t', c'⟩ := f
    have hk1 : k ≠ k' := fun heq => hkeys (by simp [heq])
    have hrest : k ∉ rest.map (fun f => f.1) := fun hmem => hkeys (by simp; right; simpa using hmem)
    simp only [List.foldl_cons]
    rw [ih _ hrest, parseStep_data]
    rcases hfr : fieldResult root k' t' c' with _ | v
    · rfl
    · exact dget_dset_ne _ _ _ _ (Ne.symm hk1)

theorem foldl_parseStep_data_mem (root : XmlDoc)
    (L : List (String × String × Bool)) (st : PAcc) (k t : String) (c : Bool)
    (hmem : (k, t, c) ∈ L) (hnd : (L.map (fun f => f.1)).Nodup) :
    dget (L.foldl (parseStep root) st).1 k
      = (match fieldResult root k t c with
          | Option.none => dget st.1 k
          | some v => some v) := by
  induction L generalizing st with
  | nil => cases hmem
  | cons f rest ih =>
    rw [List.map_cons] at hnd
    obtain ⟨hknot, hndrest⟩ := List.nodup_cons.mp hnd
    simp only [List.foldl_cons]
    rcases List.mem_cons.mp hmem with h | h
    · subst h
      rw [foldl_parseStep_data_not_mem root rest _ k hknot, parseStep_data]
      rcases hfr : fieldResult root k t c with _ | v
      · rfl
      · exact dget_dset_self _ _ _
    · have hk1 : k ≠ f.1 := by
        intro heq
        exact hknot (heq ▸ List.mem_map.mpr ⟨(k, t, c), h, rfl⟩)
      rw [ih _ h hndrest]
      have hstep : dget (parseStep root st f).1 k = dget st.1 k := by
        obtain ⟨k', t', c'⟩ := f
        rw [parseStep_data]
        rcases hfr : fieldResult root k' t' c' with _ | v
        · rfl
        · exact dget_dset_ne _ _ _ _ (Ne.symm hk1)
      rw [hstep]

/-- A key already recorded in the missing-PV set stays recorded, and its
once-only warning is never re-emitted by any later loop iteration. -/
theorem parseStep_preserves_suppression (root : XmlDoc) (st : PAcc)
    (f : String × String × Bool) (htagf : f.2.1 = f.1) (k : String)
    (h1 : k ∈ st.2.1) (h2 : pvWarnMsg k ∉ st.2.2) :
    k ∈ (parseStep root st f).2.1 ∧ pvWarnMsg k ∉ (parseStep root st f).2.2 := by
  obtain ⟨data, miss, warns⟩ := st
  obtain ⟨kk, tt, cc⟩ := f
  have ht : tt = kk := htagf
  subst ht
  rcases hel : elemText root tt with _ | txt
  · rcases hpv : pvPrefix tt with _ | _
    · refine ⟨by simpa [parseStep, hel, hpv] using h1, ?_⟩
      intro hmem
      simp only [parseStep, hel, hpv, Bool.false_eq_true, if_false] at hmem
      rcases List.mem_append.mp hmem with hmem | hmem
      · exact h2 hmem
      · simp at hmem
        exact missWarnMsg_ne_pvWarnMsg tt k hmem.symm
    · by_cases h3 : tt ∈ miss
      · exact ⟨by simpa [parseStep, hel, hpv, h3] using h1,
          by simpa [parseStep, hel, hpv, h3] using h2⟩
      · constructor
        · simp only [parseStep, hel, hpv, if_true, h3, if_neg h3]
          exact List.mem_append_left _ h1
        · intro hmem
          simp only [parseStep, hel, hpv, if_true, h3, if_neg h3] at hmem
          rcases List.mem_append.mp hmem with hmem | hmem
          · exact h2 hmem
          · simp at hmem
            exact h3 (pvWarnMsg_inj hmem.symm ▸ h1)
  · rcases h4 : (if tt ∈ SPLIT_KEYS then (pySplitWs (pyStrip txt)).head? else some (pyStrip txt))
      with _ | rawv
    · refine ⟨by simpa [parseStep, hel, h4] using h1, ?_⟩
      intro hmem
      simp only [parseStep, hel, h4] at hmem
      rcases List.mem_append.mp hmem with hmem | hmem
      · exact h2 hmem
      · simp at hmem
        exact convWarnMsg_ne_pvWarnMsg tt k hmem.symm
    · cases cc with
      | false =>
        exact ⟨by simpa [parseStep, hel, h4] using h1,
          by simpa [parseStep, hel, h4] using h2⟩
      | true =>
        rcases h5 : pyFloat? rawv with _ | q
        · refine ⟨by simpa [parseStep, hel, h4, h5] using h1, ?_⟩
          intro hmem
          simp only [parseStep, hel, h4, h5] at hmem
          rcases List.mem_append.mp hmem with hmem | hmem
          · exact h2 hmem
          · simp at hmem
            exact convWarnMsg_ne_pvWarnMsg tt k hmem.symm
        · exact ⟨by simpa [parseStep, hel, h4, h5] using h1,
            by simpa [parseStep, hel, h4, h5] using h2⟩

theorem foldl_parseStep_suppression (root : XmlDoc)
    (L : List (String × String × Bool)) (hL : ∀ f ∈ L, f.2.1 = f.1) (st : PAcc)
    (k : String) (h1 : k ∈ st.2.1) (h2 : pvWarnMsg k ∉ st.2.2) :
    pvWarnMsg k ∉ (L.foldl (parseStep root) st).2.2 := by
  induction L generalizing st with
  | nil => exact h2
  | cons f rest ih =>
    obtain ⟨g1, g2⟩ := parseStep_preserves_suppression root st f
      (hL f (List.mem_cons_self f rest)) k h1 h2
    exact ih (fun f' hf' => hL f' (List.mem_cons_of_mem f hf')) _ g1 g2

/-- The warnings and missing-set effect of the loop iteration of a missing
PV field not yet in the missing set. -/
theorem parseStep_missing_pv (root : XmlDoc) (st : PAcc) (k t : String) (c : Bool)
    (hel : elemText root t = Option.none) (hpv : pvPrefix k = true)
    (hnot : k ∉ st.2.1) :
    (parseStep root st (k, t, c)).2.1 = st.2.1 ++ [k] ∧
      (parseStep root st (k, t, c)).2.2 = st.2.2 ++ [pvWarnMsg t] := by
  obtain ⟨data, miss, warns⟩ := st
  exact ⟨by simp [parseStep, hel, hpv, hnot], by simp [parseStep, hel, hpv, hnot]⟩

/-- The warnings effect of the loop iteration of a missing non-PV field. -/
theorem parseStep_missing_non_pv (root : XmlDoc) (st : PAcc) (k t : String)
    (c : Bool) (hel : elemText root t = Option.none) (hpv : pvPrefix k = false) :
    (parseStep root st (k, t, c)).2.2 = st.2.2 ++ [missWarnMsg t] := by
  obtain ⟨data, miss, warns⟩ := st
  simp [parseStep, hel, hpv]

/-! ## Claims C6, C7, C8 -/

/-- C6: the parser fails exactly when the top-level XML is malformed, and
then returns no partially populated mapping; on well-formed XML a missing
element, empty element text, or a conversion failure only omits that field
and never aborts the parse. -/
theorem C6_parse_fails_iff_malformed (missing : List String) (root : XmlDoc)
    (k t : String) (c : Bool) (hf : (k, t, c) ∈ XML_FIELDS)
    (hfail : fieldResult root k t c = Option.none) :
    _parse_xml_data missing Option.none = .error "XML parse error" ∧
      ∃ res, _parse_xml_data missing (some root) = .ok res ∧
        dget res.1 k = Option.none := by
  refine ⟨rfl, ⟨_, rfl, ?_⟩⟩
  rw [foldl_parseStep_data_mem root XML_FIELDS ([], missing, []) k t c hf
      XML_FIELDS_keys_nodup, hfail]
  rfl

/-- C6 witness: the document `exDoc` misses the `v-pv1` element, so the
parse succeeds while omitting `v-pv1` from the result. -/
theorem C6_witness :
    _parse_xml_data [] Option.none = .error "XML parse error" ∧
      ∃ res, _parse_xml_data [] (some exDoc) = .ok res ∧
        dget res.1 "v-pv1" = Option.none :=
  C6_parse_fails_iff_malformed [] exDoc "v-pv1" "v-pv1" true (by decide) (by decide)

/-- C7 counterexample: the claim says the 1st/2nd PV-string fields warn on
every occurrence, with the warn-once suppression reserved for the 3rd/4th
strings.  On `exDoc` (whose `v-pv1` element is missing) the first parse logs
the `v-pv1` warning and records it in the missing-PV set; the second parse
of the same document logs no warning at all — the 1st-string field is
suppressed exactly like the 3rd/4th ones. -/
theorem C7_counterexample :
    parseWarns [] (some exDoc)
      = ["Missing PV sensor XML element: v-pv1",
         "Missing PV sensor XML element: v-pv3",
         "Missing PV sensor XML element: i-pv3",
         "Missing PV sensor XML element: v-pv4",
         "Missing PV sensor XML element: i-pv4"] ∧
      parseMiss [] (some exDoc) = ["v-pv1", "v-pv3", "i-pv3", "v-pv4", "i-pv4"] ∧
      parseWarns (parseMiss [] (some exDoc)) (some exDoc) = [] := by
  refine ⟨?_, ?_, ?_⟩ <;> decide

/-- C7 (amended): the warn-once suppression applies to every PV-string
field (`v-pv*`/`i-pv*`, strings 1-4), not only the 3rd/4th: a missing PV
field not yet in the missing set warns and is added to the set; a missing PV
field already in the set stays silent; a missing non-PV field warns on every
invocation, whatever the missing set. -/
theorem C7_pv_warn_once_all_strings (missing : List String) (root : XmlDoc)
    (k t : String) (c : Bool) (hf : (k, t, c) ∈ XML_FIELDS)
    (hel : elemText root t = Option.none) :
    (pvPrefix k = true → k ∉ missing →
      ∃ res, _parse_xml_data missing (some root) = .ok res ∧
        pvWarnMsg t ∈ res.2.2 ∧ k ∈ res.2.1) ∧
      (pvPrefix k = true → k ∈ missing →
        ∃ res, _parse_xml_data missing (some root) = .ok res ∧
          pvWarnMsg t ∉ res.2.2) ∧
      (pvPrefix k = false →
        ∃ res, _parse_xml_data missing (some root) = .ok res ∧
          missWarnMsg t ∈ res.2.2) := by
  have htk : t = k := XML_FIELDS_tag_eq_key (k, t, c) hf
  obtain ⟨L1, L2, hsplit⟩ := List.append_of_mem hf
  have hfold : XML_FIELDS.foldl (parseStep root) ([], missing, [])
      = L2.foldl (parseStep root)
          (parseStep root (L1.foldl (parseStep root) ([], missing, [])) (k, t, c)) := by
    rw [hsplit, List.foldl_append, List.foldl_cons]
  have hkeysnd := XML_FIELDS_keys_nodup
  rw [hsplit, List.map_append, List.map_cons] at hkeysnd
  have hkL1 : k ∉ L1.map (fun f => f.1) := by
    intro hmem
    exact (List.nodup_append.mp hkeysnd).2.2 hmem (List.mem_cons_self k _)
  refine ⟨?_, ?_, ?_⟩
  · intro hpv hnotmiss
    refine ⟨_, rfl, ?_, ?_⟩
    · rw [hfold]
      apply foldl_parseStep_warns_mono
      have hnot1 : k ∉ (L1.foldl (parseStep root) ([], missing, [])).2.1 :=
        foldl_parseStep_miss_not_mem root L1 ([], missing, []) k hnotmiss hkL1
      rw [(parseStep_missing_pv root _ k t c hel hpv hnot1).2]
      simp
    · rw [hfold]
      apply foldl_parseStep_miss_mono
      have hnot1 : k ∉ (L1.foldl (parseStep root) ([], missing, [])).2.1 :=
        foldl_parseStep_miss_not_mem root L1 ([], missing, []) k hnotmiss hkL1
      rw [(parseStep_missing_pv root _ k t c hel hpv hnot1).1]
      simp
  · intro hpv hmiss
    refine ⟨_, rfl, ?_⟩
    rw [htk]
    exact foldl_parseStep_suppression root XML_FIELDS XML_FIELDS_tag_eq_key
      ([], missing, []) k hmiss (by simp)
  · intro hpv
    refine ⟨_, rfl, ?_⟩
    rw [hfold]
    apply foldl_parseStep_warns_mono
    rw [parseStep_missing_non_pv root _ k t c hel hpv]
    simp

/-- C7 witness: `v-pv1` (a 1st-string field) is suppressed once recorded and
warned when not; `state` (non-PV) warns regardless — on a document missing
both. -/
theorem C7_witness :
    ((pvPrefix "v-pv1" = true → "v-pv1" ∉ (["v-pv1"] : List String) →
        ∃ res, _parse_xml_data ["v-pv1"] (some ([] : XmlDoc)) = .ok res ∧
          pvWarnMsg "v-pv1" ∈ res.2.2 ∧ "v-pv1" ∈ res.2.1) ∧
      (pvPrefix "v-pv1" = true → "v-pv1" ∈ (["v-pv1"] : List String) →
        ∃ res, _parse_xml_data ["v-pv1"] (some ([] : XmlDoc)) = .ok res ∧
          pvWarnMsg "v-pv1" ∉ res.2.2) ∧
      (pvPrefix "v-pv1" = false →
        ∃ res, _parse_xml_data ["v-pv1"] (some ([] : XmlDoc)) = .ok res ∧
          missWarnMsg "v-pv1" ∈ res.2.2)) ∧
      ((pvPrefix "state" = true → "state" ∉ ([] : List String) →
        ∃ res, _parse_xml_data [] (some ([] : XmlDoc)) = .ok res ∧
          pvWarnMsg "state" ∈ res.2.2 ∧ "state" ∈ res.2.1) ∧
      (pvPrefix "state" = true → "state" ∈ ([] : List String) →
        ∃ res, _parse_xml_data [] (some ([] : XmlDoc)) = .ok res ∧
          pvWarnMsg "state" ∉ res.2.2) ∧
      (pvPrefix "state" = false →
        ∃ res, _parse_xml_data [] (some ([] : XmlDoc)) = .ok res ∧
          missWarnMsg "state" ∈ res.2.2)) :=
  ⟨C7_pv_warn_once_all_strings ["v-pv1"] [] "v-pv1" "v-pv1" true (by decide) rfl,
    C7_pv_warn_once_all_strings [] [] "state" "state" false (by decide) rfl⟩

/-- C8: for the PV-string fields whose raw text may carry a trailing unit
token (`v-pv2`/`i-pv2`/`v-pv3`/`i-pv3`/`v-pv4`/`i-pv4`), the parser trims
surrounding whitespace and converts only the first whitespace-delimited
token of the element text. -/
theorem C8_split_keys_first_token (missing : List String) (root : XmlDoc)
    (k t : String) (hf : (k, t, true) ∈ XML_FIELDS) (hk : k ∈ SPLIT_KEYS)
    (txt tok : String) (q : ℚ) (hel : elemText root t = some txt)
    (htok : (pySplitWs (pyStrip txt)).head? = some tok) (hq : pyFloat? tok = some q) :
    ∃ res, _parse_xml_data missing (some root) = .ok res ∧
      dget res.1 k = some (.num q) := by
  refine ⟨_, rfl, ?_⟩
  rw [foldl_parseStep_data_mem root XML_FIELDS ([], missing, []) k t true hf
    XML_FIELDS_keys_nodup]
  have hfr : fieldResult root k t true = some (.num q) := by
    simp [fieldResult, hel, hk, htok, hq]
  rw [hfr]

/-- C8 witness: raw text `" 231.4 V "` for `v-pv2` parses to the float
`231.4` (the unit suffix is discarded). -/
theorem C8_witness :
    ∃ res, _parse_xml_data [] (some exDoc) = .ok res ∧
      dget res.1 "v-pv2" = some (.num (1157/5)) := by
  have hq : pyFloat? "231.4" = some (1157/5 : ℚ) := by
    have hrep : pyFloatRep "231.4" = some (false, 2314, 1) := by decide
    simp [pyFloat?, hrep]
    norm_num
  exact C8_split_keys_first_token [] exDoc "v-pv2" "v-pv2" (by decide) (by decide)
    " 231.4 V " "231.4" (1157/5) (by decide) (by decide) hq

end SajSununo
